import Mathlib

/-!
Verification development for the company-website content manager
(`backend/app/main.py`, `backend/app/admin_views.py`, `backend/app/crud.py`,
`backend/app/schemas.py`).

The Python functions are shallowly embedded as executable Lean definitions.
Strings are handled as `List Char`; Python's `re` scan is rendered as an
explicit leftmost-first linear matcher over the same fixed tag alternatives;
Python's `\d` is modelled as the ASCII digits actually used by the stored
markup; `json.dumps`/`json.loads` (the external JSON codec) are modelled by
working directly on a JSON value type.
-/

namespace Eiho

/-- Whitespace stripped by Python `str.strip` (the ASCII whitespace set). -/
def isPySpace (c : Char) : Bool :=
  c = ' ' || c = '\t' || c = '\n' || c = '\r' || c = Char.ofNat 11 || c = Char.ofNat 12

/-- Python `str.strip` on a character list. -/
def stripChars (cs : List Char) : List Char :=
  ((cs.dropWhile isPySpace).reverse.dropWhile isPySpace).reverse

/-- Python `str.strip` on a string. -/
def stripStr (s : String) : String :=
  String.mk (stripChars s.data)

/-- Case-insensitive literal-prefix test (the scan is compiled with
`re.IGNORECASE`). -/
def ciPrefix : List Char → List Char → Bool
  | [], _ => true
  | _ :: _, [] => false
  | l :: ls, c :: cs => (l.toLower = c.toLower) && ciPrefix ls cs

/-- Decimal value of a digit run, as produced by Python `int` on a
digits-only string. -/
def digitsVal (ds : List Char) : Nat :=
  ds.foldl (fun a c => a * 10 + (c.toNat - '0'.toNat)) 0

/-- Image layout hint captured by the tag pattern: `left|right|full`. -/
inductive Layout where
  | left
  | right
  | full
deriving DecidableEq, Repr

/-- Payload of an emitted `image` block: `{"type": "image", "url": …, "layout": …}`. -/
structure ImageBlock where
  url : String
  layout : Layout
deriving DecidableEq, Repr

/-- Content block emitted by `_build_news_content_blocks` /
`_build_service_content_blocks` (main.py). `imageRow` is the
`{"type": "image_row", "row_images": …}` block holding the grouped image
blocks. -/
inductive Block where
  | text (value : String)
  | heading (value : String)
  | note (value : String)
  | list (ordered : Bool) (items : List String)
  | image (img : ImageBlock)
  | imageRow (rowImages : List ImageBlock)
deriving DecidableEq, Repr

/-- Raw result of one step of the tag scan: either a gap of plain text
between matches, or one matched tag with its captured groups. -/
inductive Tok where
  | plain (cs : List Char)
  | img (idx : Nat) (layout : Layout)
  | h2 (inner : List Char)
  | note (inner : List Char)
  | ul (inner : List Char)
  | ol (inner : List Char)
deriving DecidableEq, Repr

/-- Matcher for the captured layout alternative `(left|right|full)`;
returns the layout and the number of characters consumed.  The alternatives
start with distinct letters, so first-match equals the regex semantics. -/
def matchLayout (cs : List Char) : Option (Layout × Nat) :=
  if ciPrefix "left".data cs then some (Layout.left, 4)
  else if ciPrefix "right".data cs then some (Layout.right, 5)
  else if ciPrefix "full".data cs then some (Layout.full, 4)
  else none

/-- Matcher for one image-tag alternative
(`\x7b\x7bimg:(\d+)(?:\|(left|right|full))?\x7d\x7d` or the `[img:…]` form)
at the head of `cs`.  The digit run is maximal (greedy `\d+`; digits can
never match `|`, `\x7d` or `]`, so no backtracking case is lost), and the
optional layout group applies exactly when a `|` follows the digits. -/
def matchImgAt (openLit closeLit : List Char) (cs : List Char) : Option (Tok × Nat) :=
  if ciPrefix openLit cs then
    let rest1 := cs.drop openLit.length
    let ds := rest1.takeWhile Char.isDigit
    let rest2 := rest1.drop ds.length
    if ds.isEmpty then none
    else if ciPrefix closeLit rest2 then
      some (Tok.img (digitsVal ds) Layout.full, openLit.length + ds.length + closeLit.length)
    else
      match rest2 with
      | '|' :: rest3 =>
        match matchLayout rest3 with
        | some (lay, n) =>
          if ciPrefix closeLit (rest3.drop n) then
            some (Tok.img (digitsVal ds) lay,
              openLit.length + ds.length + 1 + n + closeLit.length)
          else none
        | none => none
      | _ => none
  else none

/-- Minimal-length inner text before the closing literal (non-greedy `(.*?)`
with `re.DOTALL`): the first position where `closeLit` matches wins. -/
def findClose (closeLit : List Char) : List Char → Option (List Char)
  | [] => if ciPrefix closeLit [] then some [] else none
  | c :: rest =>
    if ciPrefix closeLit (c :: rest) then some []
    else (findClose closeLit rest).map (fun inner => c :: inner)

/-- Matcher for one block-tag alternative (`[h2]…[/h2]` etc.) at the head of
`cs`. -/
def matchBlockAt (openLit closeLit : List Char) (mk : List Char → Tok) (cs : List Char) :
    Option (Tok × Nat) :=
  if ciPrefix openLit cs then
    match findClose closeLit (cs.drop openLit.length) with
    | some inner => some (mk inner, openLit.length + inner.length + closeLit.length)
    | none => none
  else none

/-- Try the six alternatives of the combined tag pattern at the head of `cs`,
in the source order of the alternation. -/
def tryMatchAt (cs : List Char) : Option (Tok × Nat) :=
  matchImgAt "\x7b\x7bimg:".data "\x7d\x7d".data cs <|>
  matchImgAt "[img:".data "]".data cs <|>
  matchBlockAt "[h2]".data "[/h2]".data Tok.h2 cs <|>
  matchBlockAt "[note]".data "[/note]".data Tok.note cs <|>
  matchBlockAt "[ul]".data "[/ul]".data Tok.ul cs <|>
  matchBlockAt "[ol]".data "[/ol]".data Tok.ol cs

/-- Emit an accumulated gap of plain text (possibly empty). -/
def flushPlain (pending : List Char) : List Tok :=
  if pending.isEmpty then [] else [Tok.plain pending]

/-- Fuel-indexed body of the scan loop; every step consumes at least one
character, so fuel equal to the text length never runs out (the fuel-zero
branch flushes the rest as plain text, which coincides with the
zero-remaining-characters case). -/
def scanAux : Nat → List Char → List Char → List Tok
  | 0, pending, cs => flushPlain (pending ++ cs)
  | _ + 1, pending, [] => flushPlain pending
  | fuel + 1, pending, c :: rest =>
    match tryMatchAt (c :: rest) with
    | some tn => flushPlain pending ++ tn.1 :: scanAux fuel [] ((c :: rest).drop (max tn.2 1))
    | none => scanAux fuel (pending ++ [c]) rest

/-- Linear leftmost scan of the body text for the combined tag pattern
(`pattern.finditer` in the source): at each position the first matching
alternative wins, matches do not overlap, and the gaps of plain text
between matches are kept as `Tok.plain`. -/
def scanToks (pending cs : List Char) : List Tok :=
  scanAux cs.length pending cs

/-- Python `str.split("|")`: split at every `|`, keeping empty pieces. -/
def pipeSplit : List Char → List (List Char)
  | [] => [[]]
  | '|' :: rest => [] :: pipeSplit rest
  | c :: rest =>
    match pipeSplit rest with
    | [] => [[c]]
    | piece :: more => (c :: piece) :: more

/-- The list items of a `[ul]`/`[ol]` tag:
`[x.strip() for x in raw.split("|") if x.strip()]`. -/
def listItems (inner : List Char) : List String :=
  (((pipeSplit inner).map stripChars).filter (fun p => !p.isEmpty)).map String.mk

/-- Blocks emitted for the scanned token sequence (the per-match bodies of the
scan loop in `_build_news_content_blocks`).  The image index is 1-based in
markup; an out-of-range index emits nothing. -/
def tokBlocks (images : List String) : List Tok → List Block
  | [] => []
  | Tok.plain cs :: ts =>
    if (stripChars cs).isEmpty then tokBlocks images ts
    else Block.text (String.mk (stripChars cs)) :: tokBlocks images ts
  | Tok.img idx lay :: ts =>
    if 1 ≤ idx ∧ idx - 1 < images.length then
      Block.image ⟨images.getD (idx - 1) "", lay⟩ :: tokBlocks images ts
    else tokBlocks images ts
  | Tok.h2 inner :: ts =>
    if (stripChars inner).isEmpty then tokBlocks images ts
    else Block.heading (String.mk (stripChars inner)) :: tokBlocks images ts
  | Tok.note inner :: ts =>
    if (stripChars inner).isEmpty then tokBlocks images ts
    else Block.note (String.mk (stripChars inner)) :: tokBlocks images ts
  | Tok.ul inner :: ts =>
    if (listItems inner).isEmpty then tokBlocks images ts
    else Block.list false (listItems inner) :: tokBlocks images ts
  | Tok.ol inner :: ts =>
    if (listItems inner).isEmpty then tokBlocks images ts
    else Block.list true (listItems inner) :: tokBlocks images ts

/-- The 0-based image indices added to `used_indexes` by the scan loop (only
in-range placements are recorded). -/
def tokUsed (images : List String) : List Tok → List Nat
  | [] => []
  | Tok.img idx _ :: ts =>
    if 1 ≤ idx ∧ idx - 1 < images.length then
      (idx - 1) :: tokUsed images ts
    else tokUsed images ts
  | Tok.plain _ :: ts => tokUsed images ts
  | Tok.h2 _ :: ts => tokUsed images ts
  | Tok.note _ :: ts => tokUsed images ts
  | Tok.ul _ :: ts => tokUsed images ts
  | Tok.ol _ :: ts => tokUsed images ts

/-- `[url for idx, url in enumerate(images) if idx not in used_indexes]`. -/
def remainingImages (images : List String) (used : List Nat) : List String :=
  (images.enum.filter (fun p => !(used.contains p.1))).map Prod.snd

/-- Layouts grouped into a row: `block.get("layout") in \x7b"left", "right"\x7d`. -/
def sideLayout (lay : Layout) : Bool :=
  lay == Layout.left || lay == Layout.right

/-- Emit the currently collected run of side-aligned images, if any. -/
def flushRow (pending : List ImageBlock) : List Block :=
  if pending.isEmpty then [] else [Block.imageRow pending]

/-- The row-compaction while-loop: consecutive side-aligned image blocks are
collected and emitted as one `image_row` block; every other block (including
full-layout images) passes through and ends the current run. -/
def compactAux : List ImageBlock → List Block → List Block
  | pending, [] => flushRow pending
  | pending, Block.image img :: rest =>
    if sideLayout img.layout then compactAux (pending ++ [img]) rest
    else flushRow pending ++ Block.image img :: compactAux [] rest
  | pending, b :: rest => flushRow pending ++ b :: compactAux [] rest

/-- Row-compaction pass over the emitted block sequence. -/
def compactBlocks (bs : List Block) : List Block :=
  compactAux [] bs

/-- Python `body.replace("\r\n", "\n")` (left-to-right, non-overlapping). -/
def replaceCRLF : List Char → List Char
  | '\r' :: '\n' :: rest => '\n' :: replaceCRLF rest
  | c :: rest => c :: replaceCRLF rest
  | [] => []

/-- `_build_news_content_blocks(body, images)` (main.py:383-481): scan the
body for tags, emit typed blocks, compact side-image runs, and return the
images never consumed by a placement tag. -/
def buildNewsContentBlocks (body : String) (images : List String) :
    List Block × List String :=
  let text := replaceCRLF body.data
  let toks := scanToks [] text
  (compactBlocks (tokBlocks images toks), remainingImages images (tokUsed images toks))

/-- `_build_service_content_blocks(detail_body, images)` (main.py:588-691):
textually the same algorithm as the news builder. -/
def buildServiceContentBlocks (detailBody : String) (images : List String) :
    List Block × List String :=
  let text := replaceCRLF detailBody.data
  let toks := scanToks [] text
  (compactBlocks (tokBlocks images toks), remainingImages images (tokUsed images toks))

/-- The `used_indexes` set accumulated while parsing a news body. -/
def usedIndexes (body : String) (images : List String) : List Nat :=
  tokUsed images (scanToks [] (replaceCRLF body.data))

/-- Membership predicate of `is_side_image` in the compaction loop. -/
def isSideImage : Block → Bool
  | Block.image img => sideLayout img.layout
  | _ => false

/-- A JSON value, as decoded by the external `json` module; `json.dumps` and
`json.loads` are the external serializer pair and the embedding works on
the decoded values directly. -/
inductive Json where
  | null
  | bool (b : Bool)
  | num (n : Int)
  | str (s : String)
  | arr (xs : List Json)
  | obj (fields : List (String × Json))

/-- Python `dict.get` on a decoded JSON object (keys of decoded objects are
unique, so first-match lookup agrees with the dict). -/
def jget (fields : List (String × Json)) (k : String) : Option Json :=
  (fields.find? (fun p => p.1 == k)).map Prod.snd

/-- Python truthiness of a decoded JSON value. -/
def jsonFalsy : Json → Bool
  | Json.null => true
  | Json.bool b => !b
  | Json.num n => n == 0
  | Json.str s => s == ""
  | Json.arr xs => xs.isEmpty
  | Json.obj fs => fs.isEmpty

/-- Python `str()` of a decoded JSON value, as far as this code base
exercises it (strings pass through, numbers/booleans/None use their Python
repr; container reprs are never fed to `str()` by the stored data and map
to `""`). -/
def pyStr : Json → String
  | Json.str s => s
  | Json.num n => toString n
  | Json.bool true => "True"
  | Json.bool false => "False"
  | Json.null => "None"
  | Json.arr _ => ""
  | Json.obj _ => ""

/-- Python `str(a or b or … or "")` over fetched fields: the first truthy
value is converted, otherwise the result is `""`. -/
def pyStrOrChain : List (Option Json) → String
  | [] => ""
  | some v :: rest => if jsonFalsy v then pyStrOrChain rest else pyStr v
  | none :: rest => pyStrOrChain rest

/-- Python `str(x or "")`. -/
def pyStrOr (o : Option Json) : String :=
  pyStrOrChain [o]

/-- A string-valued field fetched with `item.get(k) or ""`.  (A non-string,
non-falsy stored value would be handed to a pydantic `str` field and raise
a validation error; that shape never occurs in encoded data and is mapped
to `""`.) -/
def strField (fields : List (String × Json)) (k : String) : String :=
  match jget fields k with
  | some (Json.str s) => s
  | _ => ""

/-- Replace every occurrence of one character by another
(`str.replace` with single-character arguments). -/
def mapReplace (a b : Char) (cs : List Char) : List Char :=
  cs.map (fun c => if c = a then b else c)

/-- Split at every line break, keeping empty segments. -/
def splitBreaks : List Char → List (List Char)
  | [] => [[]]
  | '\r' :: '\n' :: rest => [] :: splitBreaks rest
  | '\n' :: rest => [] :: splitBreaks rest
  | '\r' :: rest => [] :: splitBreaks rest
  | c :: rest =>
    match splitBreaks rest with
    | [] => [[c]]
    | piece :: more => (c :: piece) :: more

/-- Python `str.splitlines` (for the `\n`, `\r`, `\r\n` breaks that occur in
this data): break-separated segments, without a trailing empty line. -/
def splitLinesPy (cs : List Char) : List (List Char) :=
  let segs := splitBreaks cs
  match segs.getLast? with
  | some [] => segs.dropLast
  | _ => segs

/-- The suffix after the first occurrence of `pat`. -/
def afterSubstr (pat : List Char) : List Char → Option (List Char)
  | [] => if pat.isEmpty then some [] else none
  | c :: rest =>
    if pat.isPrefixOf (c :: rest) then some ((c :: rest).drop pat.length)
    else afterSubstr pat rest

/-- `Path(urlparse(url).path).name` for the URL shapes stored by this
application: drop a `scheme://netloc` head when present, cut query and
fragment, and take the last `/`-separated component. -/
def urlBasename (cs : List Char) : List Char :=
  let withPath :=
    match afterSubstr "://".data cs with
    | some r => r.dropWhile (fun c => !(c == '/'))
    | none => cs
  let path := withPath.takeWhile (fun c => !(c == '?' || c == '#'))
  (path.reverse.takeWhile (fun c => !(c == '/'))).reverse

/-- detail_images supplied as one string: replace full-width commas, turn
commas into line breaks, split lines, strip, drop empties
(admin_views.py:42-47 and the identical service_detail / _build_services
copies). -/
def detailImagesOfStr (s : String) : List String :=
  (((splitLinesPy (mapReplace ',' '\n' (mapReplace '，' ',' s.data))).map
    stripChars).filter (fun l => !l.isEmpty)).map String.mk

/-- detail_images supplied as an already-structured list
(admin_views.py:48-56): dict rows contribute `url`/`src`, other rows their
`str()`, empties dropped. -/
def detailImagesOfList (rows : List Json) : List String :=
  rows.filterMap (fun line =>
    let value :=
      match line with
      | Json.obj fields => stripStr (pyStrOrChain [jget fields "url", jget fields "src"])
      | _ => stripStr (pyStr line)
    if value == "" then none else some value)

/-- detail_files supplied as one string (admin_views.py:62-75): each
nonempty line is either a `name|url` pair split at the first `|`, or a bare
URL named by its path basename (falling back to a placeholder). -/
def detailFilesOfStr (s : String) : List (String × String) :=
  (splitLinesPy s.data).filterMap (fun rawLine =>
    let line := stripChars rawLine
    if line.isEmpty then none
    else if line.contains '|' then
      let name := stripChars (line.takeWhile (fun c => !(c == '|')))
      let url := stripChars ((line.dropWhile (fun c => !(c == '|'))).drop 1)
      if url.isEmpty then none
      else some (if name.isEmpty then "文件" else String.mk name, String.mk url)
    else
      let name := urlBasename line
      some (if name.isEmpty then "文件" else String.mk name, String.mk line))

/-- detail_files supplied as an already-structured list
(admin_views.py:76-85). -/
def detailFilesOfList (rows : List Json) : List (String × String) :=
  rows.filterMap (fun row =>
    match row with
    | Json.obj fields =>
      let url := stripStr (pyStrOr (jget fields "url"))
      let name := stripStr (pyStrOr (jget fields "name"))
      if url == "" then none
      else some (if name == "" then "文件" else name, url)
    | _ =>
      let url := stripStr (pyStr row)
      let name := urlBasename url.data
      if url == "" then none
      else some (if name.isEmpty then "文件" else String.mk name, url))

/-- `ServiceItem` as declared in schemas.py lines 4-7: only `title`, `body`
and `icon`. -/
structure ServiceItem where
  title : String
  body : String
  icon : Option String
deriving DecidableEq, Repr

/-- The full record `_parse_services` computes per row and hands to the
`ServiceItem` constructor; this is also the ServiceItem record shape of the
specification (title, body, icon?, detail_body?, detail_images,
detail_files). -/
structure ServiceRecord where
  title : String
  body : String
  icon : Option String
  detail_body : String
  detail_images : List String
  detail_files : List (String × String)
deriving DecidableEq, Repr

/-- Validation of a ServiceItem-shaped record against schemas.py's
three-field `ServiceItem` (pydantic `BaseModel` with the default
`extra="ignore"`): the unknown `detail_body` / `detail_images` /
`detail_files` keyword arguments are silently dropped. -/
def validateServiceItem (r : ServiceRecord) : ServiceItem :=
  { title := r.title, body := r.body, icon := r.icon }

/-- `model_dump()` of one validated ServiceItem: a JSON object with exactly
the declared fields. -/
def encodeServiceObj (s : ServiceItem) : Json :=
  Json.obj [("title", Json.str s.title), ("body", Json.str s.body),
    ("icon", match s.icon with | some i => Json.str i | none => Json.null)]

/-- `model_dump()` of the validated services list followed by the external
`json.dumps` (update_home, crud.py:146-151). -/
def encodeServices (xs : List ServiceItem) : Json :=
  Json.arr (xs.map encodeServiceObj)

/-- The `icon` field of a decoded row (`item.get("icon")`, handed to the
`Optional[str]` pydantic field: absent or null become `None`). -/
def iconField (fields : List (String × Json)) : Option String :=
  match jget fields "icon" with
  | some (Json.str s) => some s
  | _ => none

/-- The per-row body of `_parse_services` (admin_views.py:38-94), keeping
every computed value. -/
def parseServiceRecord (item : Json) : Option ServiceRecord :=
  match item with
  | Json.obj fields =>
    let detailImagesRaw :=
      match jget fields "detail_images" with
      | some v => if jsonFalsy v then Json.arr [] else v
      | none => Json.arr []
    let detail_images :=
      match detailImagesRaw with
      | Json.str s => detailImagesOfStr s
      | Json.arr rows => detailImagesOfList rows
      | _ => []
    let detailFilesRaw :=
      match jget fields "detail_files" with
      | some v => if jsonFalsy v then Json.arr [] else v
      | none => Json.arr []
    let detail_files :=
      match detailFilesRaw with
      | Json.str s => detailFilesOfStr s
      | Json.arr rows => detailFilesOfList rows
      | _ => []
    some { title := strField fields "title", body := strField fields "body",
           icon := iconField fields, detail_body := strField fields "detail_body",
           detail_images := detail_images, detail_files := detail_files }
  | _ => none

/-- `_parse_services` (admin_views.py:32-95) up to the final constructor
call: the computed records of the decoded list (non-dict rows skipped,
non-list input yields `[]`). -/
def parseServicesFull (j : Json) : List ServiceRecord :=
  match j with
  | Json.arr raw => raw.filterMap parseServiceRecord
  | _ => []

/-- `_parse_services` as the source returns it: the computed records pass
through the three-field `ServiceItem` constructor, which ignores the
detail keyword arguments. -/
def parseServices (j : Json) : List ServiceItem :=
  (parseServicesFull j).map (fun r => { title := r.title, body := r.body, icon := r.icon })

/-- The five HomeUpdate fields that update_home serializes into their
`*_json` text column (crud.py:147-171). -/
def specialJsonFields : List String :=
  ["services", "strengths", "hero_stats", "concept_points", "contact_examples"]

/-- Whether a decoded value is JSON null (Python `None`). -/
def isNull : Json → Bool
  | Json.null => true
  | _ => false

/-- The stored homepage row: a map from column name to stored value (list
columns hold the value that `json.dumps` serializes). -/
def HomeRecord := String → Json

/-- One iteration of the update loop in update_home (crud.py:146-173): a
list field that is not None is serialized into its `*_json` column,
everything else is written via `setattr` under the payload key. -/
def setHomeField (h : HomeRecord) (kv : String × Json) : HomeRecord :=
  if specialJsonFields.contains kv.1 && !(isNull kv.2) then
    fun f => if f = kv.1 ++ "_json" then kv.2 else h f
  else
    fun f => if f = kv.1 then kv.2 else h f

/-- update_home (crud.py:140-177): fold the update loop over
`payload.model_dump(exclude_unset=True)`, modelled as the association list
of the explicitly-set fields in iteration order. -/
def updateHome (home : HomeRecord) (payload : List (String × Json)) : HomeRecord :=
  payload.foldl setHomeField home

/-- The column a payload entry writes to. -/
def targetColumn (k : String) (v : Json) : String :=
  if specialJsonFields.contains k && !(isNull v) then k ++ "_json" else k

/-- `_parse_news_images` (admin_views.py:205-222): decode the
image_paths_json column (decode failures and non-lists yield `[]`), take
`url`/`src` of dict rows and `str()` of other rows, drop empties, and fall
back to the single legacy image_path when the list is empty. -/
def parseNewsImages (imagePathsJson : Json) (imagePath : String) : List String :=
  let images :=
    match imagePathsJson with
    | Json.arr rows => rows.filterMap (fun row =>
        let value :=
          match row with
          | Json.obj fields => stripStr (pyStrOrChain [jget fields "url", jget fields "src"])
          | _ => stripStr (pyStr row)
        if value == "" then none else some value)
    | _ => []
  if images.isEmpty && !(imagePath == "") then [imagePath] else images

/-- admin_update_news merge rule (admin_views.py:849):
`merged_images = existing_images + new_images if new_images else
existing_images`. -/
def mergeNewsAssets (existing newUploads : List String) : List String :=
  if !newUploads.isEmpty then existing ++ newUploads else existing

/-- Modelled from the spec: the Record Store operation
`updateNews(id, fields)` of spec section 6 persists the supplied image-path
list as the stored image list.  (The `update_news` variant accepting
`image_paths` that admin_views.py:853-863 calls is not part of this
snapshot of crud.py.) -/
def storedImagesAfterUpdate (existing newUploads : List String) : List String :=
  mergeNewsAssets existing newUploads

/-- A strengths/hero-stat row record (`StrengthItem`, schemas.py:9-12). -/
structure StrengthItem where
  title : String
  body : String
  icon : Option String
deriving DecidableEq, Repr

/-- A hero-stat record (`HeroStatItem`, schemas.py:15-18). -/
structure HeroStatItem where
  value : Int
  suffix : String
  label : String
deriving DecidableEq, Repr

/-- A concept-point record (`ConceptPointItem`, schemas.py:21-23). -/
structure ConceptPointItem where
  label : String
  body : String
deriving DecidableEq, Repr

/-- A profile row (`\x7b"label": …, "value": …\x7d`). -/
structure ProfileRow where
  label : String
  value : String
deriving DecidableEq, Repr

/-- `values[i].strip() if i < len(values) else ""` — the padded, trimmed
positional field access of the form-array builders. -/
def fieldAt (xs : List String) (i : Nat) : String :=
  stripStr (xs.getD i "")

/-- Python `int` on an optionally-signed decimal string (the value has
already been stripped); any other content raises and the caller's
`except` turns it into 0, hence the 0 default here. -/
def pyToInt (s : String) : Int :=
  match s.data with
  | [] => 0
  | '-' :: ds => if !ds.isEmpty && ds.all Char.isDigit then -(Int.ofNat (digitsVal ds)) else 0
  | '+' :: ds => if !ds.isEmpty && ds.all Char.isDigit then Int.ofNat (digitsVal ds) else 0
  | ds => if ds.all Char.isDigit then Int.ofNat (digitsVal ds) else 0

/-- The record `_build_items` (admin_views.py:553-563) builds at index `i`. -/
def itemAt (titles bodies icons : List String) (i : Nat) : StrengthItem :=
  { title := fieldAt titles i, body := fieldAt bodies i,
    icon := if fieldAt icons i == "" then none else some (fieldAt icons i) }

/-- The skip condition of `_build_items`: `not (title or body or icon)`. -/
def itemBlankAt (titles bodies icons : List String) (i : Nat) : Bool :=
  fieldAt titles i == "" && fieldAt bodies i == "" && fieldAt icons i == ""

/-- `_build_items` (admin_views.py:553-563). -/
def buildItems (titles bodies icons : List String) : List StrengthItem :=
  (List.range (max (max titles.length bodies.length) icons.length)).foldl
    (fun acc i =>
      if itemBlankAt titles bodies icons i then acc
      else acc ++ [itemAt titles bodies icons i]) []

/-- The record `_build_hero_stats` (admin_views.py:625-639) builds at
index `i`. -/
def heroStatAt (values suffixes labels : List String) (i : Nat) : HeroStatItem :=
  { value := if fieldAt values i == "" then 0 else pyToInt (fieldAt values i),
    suffix := fieldAt suffixes i, label := fieldAt labels i }

/-- The skip condition of `_build_hero_stats`. -/
def heroStatBlankAt (values suffixes labels : List String) (i : Nat) : Bool :=
  fieldAt values i == "" && fieldAt suffixes i == "" && fieldAt labels i == ""

/-- `_build_hero_stats` (admin_views.py:625-639). -/
def buildHeroStats (values suffixes labels : List String) : List HeroStatItem :=
  (List.range (max (max values.length suffixes.length) labels.length)).foldl
    (fun acc i =>
      if heroStatBlankAt values suffixes labels i then acc
      else acc ++ [heroStatAt values suffixes labels i]) []

/-- The record `_build_concept_points` (admin_views.py:641-650) builds at
index `i`. -/
def conceptPointAt (labels bodies : List String) (i : Nat) : ConceptPointItem :=
  { label := fieldAt labels i, body := fieldAt bodies i }

/-- The skip condition of `_build_concept_points`. -/
def conceptPointBlankAt (labels bodies : List String) (i : Nat) : Bool :=
  fieldAt labels i == "" && fieldAt bodies i == ""

/-- `_build_concept_points` (admin_views.py:641-650). -/
def buildConceptPoints (labels bodies : List String) : List ConceptPointItem :=
  (List.range (max labels.length bodies.length)).foldl
    (fun acc i =>
      if conceptPointBlankAt labels bodies i then acc
      else acc ++ [conceptPointAt labels bodies i]) []

/-- The row `_build_profile_rows` (admin_views.py:655-664) builds at
index `i`. -/
def profileRowAt (labels values : List String) (i : Nat) : ProfileRow :=
  { label := fieldAt labels i, value := fieldAt values i }

/-- The skip condition of `_build_profile_rows`. -/
def profileRowBlankAt (labels values : List String) (i : Nat) : Bool :=
  fieldAt labels i == "" && fieldAt values i == ""

/-- `_build_profile_rows` (admin_views.py:655-664). -/
def buildProfileRows (labels values : List String) : List ProfileRow :=
  (List.range (max labels.length values.length)).foldl
    (fun acc i =>
      if profileRowBlankAt labels values i then acc
      else acc ++ [profileRowAt labels values i]) []

/-- The row record `_build_services` (admin_views.py:565-623) computes at
index `i` (the values subsequently handed to the `ServiceItem`
constructor, which keeps only title/body/icon — see `validateServiceItem`;
that final projection does not affect which rows the loop keeps). -/
def serviceRowAt (titles bodies icons detailBodies detailImages detailFiles : List String)
    (i : Nat) : ServiceRecord :=
  { title := fieldAt titles i, body := fieldAt bodies i,
    icon := if fieldAt icons i == "" then none else some (fieldAt icons i),
    detail_body := fieldAt detailBodies i,
    detail_images := detailImagesOfStr (detailImages.getD i ""),
    detail_files := detailFilesOfStr (detailFiles.getD i "") }

/-- The skip condition of `_build_services` (admin_views.py:612):
`not (title or body or icon or detail_body or detail_images or
detail_files)`. -/
def serviceRowBlankAt (titles bodies icons detailBodies detailImages detailFiles : List String)
    (i : Nat) : Bool :=
  fieldAt titles i == "" && fieldAt bodies i == "" && fieldAt icons i == "" &&
  fieldAt detailBodies i == "" &&
  (detailImagesOfStr (detailImages.getD i "")).isEmpty &&
  (detailFilesOfStr (detailFiles.getD i "")).isEmpty

/-- `_build_services` (admin_views.py:565-623). -/
def buildServices (titles bodies icons detailBodies detailImages detailFiles : List String) :
    List ServiceRecord :=
  (List.range (max (max (max (max (max titles.length bodies.length) icons.length)
      detailBodies.length) detailImages.length) detailFiles.length)).foldl
    (fun acc i =>
      if serviceRowBlankAt titles bodies icons detailBodies detailImages detailFiles i then acc
      else acc ++ [serviceRowAt titles bodies icons detailBodies detailImages detailFiles i]) []

/-- One decoded row of the public_home profile-rows comprehension
(main.py:168-175): a dict row with a non-empty trimmed label or value
contributes a `ProfileRow`; everything else is filtered out. -/
def profileRowOf (row : Json) : Option ProfileRow :=
  match row with
  | Json.obj fields =>
    let label := stripStr (pyStrOr (jget fields "label"))
    let value := stripStr (pyStrOr (jget fields "value"))
    if label == "" && value == "" then none else some ⟨label, value⟩
  | _ => none

/-- The filtered dynamic profile rows of public_home (main.py:166-177). -/
def profileRowsOf (j : Json) : List ProfileRow :=
  match j with
  | Json.arr raws => raws.filterMap profileRowOf
  | _ => []

/-- A decoded profile row that contributes nothing: a non-dict row, or a
dict row whose trimmed label and value are both empty. -/
def rowNoContent : Json → Bool
  | Json.obj fields =>
    stripStr (pyStrOr (jget fields "label")) == "" &&
    stripStr (pyStrOr (jget fields "value")) == ""
  | _ => true

/-- The `profile_rows` projection of public_home (main.py:166-186): the
filtered dynamic rows, or — when none remain — six fixed rows synthesized
from the legacy scalar columns (`column or ""` on each). -/
def publicProfileRows (profileRowsJson : Json)
    (companyName address representative established businessDesc clients : Option String) :
    List ProfileRow :=
  let rows := profileRowsOf profileRowsJson
  if rows.isEmpty then
    [⟨"名称", companyName.getD ""⟩, ⟨"所在地", address.getD ""⟩,
     ⟨"代表者", representative.getD ""⟩, ⟨"設立", established.getD ""⟩,
     ⟨"事業内容", businessDesc.getD ""⟩, ⟨"主要取引先", clients.getD ""⟩]
  else rows

/-- A stored news row, with the fields news_detail consults. -/
structure NewsItem where
  id : Int
  title : String
  body : String
  is_published : Bool
deriving DecidableEq, Repr

/-- `get_news` (crud.py:193-194): first row with the given id. -/
def getNews (store : List NewsItem) (newsId : Int) : Option NewsItem :=
  store.find? (fun item => item.id == newsId)

/-- Outcome of the public news detail endpoint. -/
inductive NewsDetailResult where
  | notFound
  | page (item : NewsItem)
deriving DecidableEq, Repr

/-- news_detail (main.py:342-347): `if not item or not item.is_published:
raise HTTPException(404)`, otherwise the item's page is rendered. -/
def newsDetail (store : List NewsItem) (newsId : Int) : NewsDetailResult :=
  match getNews store newsId with
  | none => NewsDetailResult.notFound
  | some item =>
    if item.is_published then NewsDetailResult.page item else NewsDetailResult.notFound

theorem filter_fst_map_fst {β : Type} (l : List (Nat × β)) (q : Nat → Bool) :
    (l.filter (fun p => q p.1)).map Prod.fst = (l.map Prod.fst).filter q := by
  induction l with
  | nil => rfl
  | cons a l ih => by_cases h : q a.1 <;> simp [List.filter_cons, h, ih]

theorem snd_eq_getD_of_mem_enum {β : Type} (d : β) (l : List β) :
    ∀ p ∈ l.enum, p.2 = l.getD p.1 d := by
  intro p hp
  rw [List.mem_enum_iff_getElem?] at hp
  rw [List.getD_eq_getElem?_getD, hp]
  rfl

theorem tokUsed_lt (images : List String) :
    ∀ ts, ∀ i ∈ tokUsed images ts, i < images.length := by
  intro ts
  induction ts with
  | nil => intro i hi; simp [tokUsed] at hi
  | cons t ts ih =>
    intro i hi
    cases t with
    | img idx lay =>
      rw [tokUsed] at hi
      by_cases h : 1 ≤ idx ∧ idx - 1 < images.length
      · rw [if_pos h] at hi
        rcases List.mem_cons.mp hi with rfl | hi
        · exact h.2
        · exact ih i hi
      · rw [if_neg h] at hi
        exact ih i hi
    | plain cs => rw [tokUsed] at hi; exact ih i hi
    | h2 inner => rw [tokUsed] at hi; exact ih i hi
    | note inner => rw [tokUsed] at hi; exact ih i hi
    | ul inner => rw [tokUsed] at hi; exact ih i hi
    | ol inner => rw [tokUsed] at hi; exact ih i hi

theorem remainingImages_nil_used (images : List String) :
    remainingImages images [] = images := by
  simp [remainingImages, List.enum_map_snd]

theorem remainingImages_eq_range_filter (images : List String) (used : List Nat) :
    remainingImages images used =
      ((List.range images.length).filter (fun i => !(used.contains i))).map
        (fun i => images.getD i "") := by
  unfold remainingImages
  have h0 : (List.filter (fun p => !(used.contains p.1)) images.enum).map Prod.snd =
      (List.filter (fun p => !(used.contains p.1)) images.enum).map
        (fun p => images.getD p.1 "") :=
    List.map_congr_left
      (fun p hp => snd_eq_getD_of_mem_enum "" images p (List.mem_of_mem_filter hp))
  rw [h0]
  have h1 : (List.filter (fun p => !(used.contains p.1)) images.enum).map
        (fun p => images.getD p.1 "") =
      ((List.filter (fun p => !(used.contains p.1)) images.enum).map Prod.fst).map
        (fun i => images.getD i "") := by
    rw [List.map_map]
    rfl
  rw [h1, filter_fst_map_fst images.enum (fun i => !(used.contains i)), List.enum_map_fst]

/-- C1: on body
`"Intro.\n[h2]Section[/h2]\n\x7b\x7bimg:2\x7d\x7d\nMore text.\n[ul]a|b[/ul]"`
with images `["u1", "u2"]`, both content-block builders return exactly a text
block `"Intro."`, a heading `"Section"`, a full-layout image `"u2"`, a text
block `"More text."`, and an unordered list `["a", "b"]`, with leftover
images `["u1"]`. -/
theorem c1_markup_parser_scenario :
    buildNewsContentBlocks
        "Intro.\n[h2]Section[/h2]\n\x7b\x7bimg:2\x7d\x7d\nMore text.\n[ul]a|b[/ul]"
        ["u1", "u2"] =
      ([Block.text "Intro.", Block.heading "Section",
        Block.image ⟨"u2", Layout.full⟩, Block.text "More text.",
        Block.list false ["a", "b"]], ["u1"]) ∧
    buildServiceContentBlocks
        "Intro.\n[h2]Section[/h2]\n\x7b\x7bimg:2\x7d\x7d\nMore text.\n[ul]a|b[/ul]"
        ["u1", "u2"] =
      ([Block.text "Intro.", Block.heading "Section",
        Block.image ⟨"u2", Layout.full⟩, Block.text "More text.",
        Block.list false ["a", "b"]], ["u1"]) := by
  constructor <;> decide

/-- C2: for every body and image list, the consumed indices are all in range,
their union with the indices of the leftover images is the full index set,
the two sets are disjoint, and the leftover images are a sublist of the
input images (original order), being exactly the images at the
non-consumed indices in increasing index order. -/
theorem c2_leftover_completeness (body : String) (images : List String) :
    (∀ i ∈ usedIndexes body images, i < images.length) ∧
    (usedIndexes body images).toFinset ∪
        (Finset.range images.length).filter (fun i => i ∉ usedIndexes body images) =
      Finset.range images.length ∧
    Disjoint (usedIndexes body images).toFinset
      ((Finset.range images.length).filter (fun i => i ∉ usedIndexes body images)) ∧
    (buildNewsContentBlocks body images).2.Sublist images ∧
    (buildNewsContentBlocks body images).2 =
      ((List.range images.length).filter
        (fun i => !((usedIndexes body images).contains i))).map
        (fun i => images.getD i "") := by
  have hlt : ∀ i ∈ usedIndexes body images, i < images.length :=
    tokUsed_lt images (scanToks [] (replaceCRLF body.data))
  have hsnd : (buildNewsContentBlocks body images).2 =
      remainingImages images (usedIndexes body images) := rfl
  refine ⟨hlt, ?_, ?_, ?_, ?_⟩
  · ext i
    simp only [Finset.mem_union, Finset.mem_filter, Finset.mem_range, List.mem_toFinset]
    constructor
    · rintro (h | ⟨h, -⟩)
      · exact hlt i h
      · exact h
    · intro hi
      by_cases hu : i ∈ usedIndexes body images
      · exact Or.inl hu
      · exact Or.inr ⟨hi, hu⟩
  · rw [Finset.disjoint_left]
    intro i hi hj
    rw [Finset.mem_filter] at hj
    exact hj.2 (List.mem_toFinset.mp hi)
  · rw [hsnd]
    have hsub : List.Sublist
        (List.filter (fun p => !((usedIndexes body images).contains p.1)) images.enum)
        images.enum := List.filter_sublist images.enum
    have h := hsub.map Prod.snd
    rw [List.enum_map_snd] at h
    exact h
  · rw [hsnd, remainingImages_eq_range_filter]

/-- C3: in the row-compaction pass, a non-side block (in particular every
full-layout image) passes through unchanged, a maximal run of consecutive
side-aligned images (maximality given by the non-side block or end of list
after it) collapses to a single `image_row` holding exactly those images
in order, and in particular three side images followed by a full image
compact to one row of the three plus the standalone full image. -/
theorem c3_row_compaction :
    (∀ (b : Block) (rest : List Block), isSideImage b = false →
        compactBlocks (b :: rest) = b :: compactBlocks rest) ∧
    (∀ (run : List ImageBlock) (rest : List Block), run ≠ [] →
        (∀ i ∈ run, sideLayout i.layout = true) →
        (∀ b, rest.head? = some b → isSideImage b = false) →
        compactBlocks (run.map Block.image ++ rest) =
          Block.imageRow run :: compactBlocks rest) ∧
    compactBlocks [Block.image ⟨"a", Layout.left⟩, Block.image ⟨"b", Layout.right⟩,
        Block.image ⟨"c", Layout.left⟩, Block.image ⟨"d", Layout.full⟩] =
      [Block.imageRow [⟨"a", Layout.left⟩, ⟨"b", Layout.right⟩, ⟨"c", Layout.left⟩],
        Block.image ⟨"d", Layout.full⟩] := by
  have absorb : ∀ (run : List ImageBlock) (pending : List ImageBlock) (rest : List Block),
      (∀ i ∈ run, sideLayout i.layout = true) →
      compactAux pending (run.map Block.image ++ rest) = compactAux (pending ++ run) rest := by
    intro run
    induction run with
    | nil => intro pending rest _; simp
    | cons i run ih =>
      intro pending rest hside
      have hi : sideLayout i.layout = true := hside i (List.mem_cons_self i run)
      have step : compactAux pending (Block.image i :: (run.map Block.image ++ rest)) =
          compactAux (pending ++ [i]) (run.map Block.image ++ rest) := by
        simp [compactAux, hi]
      rw [List.map_cons, List.cons_append, step,
        ih (pending ++ [i]) rest (fun j hj => hside j (List.mem_cons_of_mem i hj)),
        List.append_assoc]
      rfl
  have flush : ∀ (q : ImageBlock) (qs : List ImageBlock) (rest : List Block),
      (∀ b, rest.head? = some b → isSideImage b = false) →
      compactAux (q :: qs) rest = Block.imageRow (q :: qs) :: compactAux [] rest := by
    intro q qs rest hrest
    cases rest with
    | nil => simp [compactAux, flushRow]
    | cons b rest =>
      have hb : isSideImage b = false := hrest b rfl
      cases b with
      | image img =>
        have : sideLayout img.layout = false := hb
        simp [compactAux, this, flushRow]
      | text v => simp [compactAux, flushRow]
      | heading v => simp [compactAux, flushRow]
      | note v => simp [compactAux, flushRow]
      | list o items => simp [compactAux, flushRow]
      | imageRow r => simp [compactAux, flushRow]
  refine ⟨?_, ?_, by decide⟩
  · intro b rest hb
    cases b with
    | image img =>
      have : sideLayout img.layout = false := hb
      simp [compactBlocks, compactAux, this, flushRow]
    | text v => simp [compactBlocks, compactAux, flushRow]
    | heading v => simp [compactBlocks, compactAux, flushRow]
    | note v => simp [compactBlocks, compactAux, flushRow]
    | list o items => simp [compactBlocks, compactAux, flushRow]
    | imageRow r => simp [compactBlocks, compactAux, flushRow]
  · intro run rest hne hside hrest
    obtain ⟨i, run, rfl⟩ : ∃ j js, run = j :: js := by
      cases run with
      | nil => exact absurd rfl hne
      | cons j js => exact ⟨j, js, rfl⟩
    unfold compactBlocks
    rw [absorb (i :: run) [] rest hside, List.nil_append, flush i run rest hrest]

/-- Witness for C3: a single side image followed by a text block compacts to
one image row and the untouched text block. -/
theorem c3_row_compaction_witness :
    ([⟨"x", Layout.left⟩] : List ImageBlock) ≠ [] ∧
    compactBlocks (([⟨"x", Layout.left⟩] : List ImageBlock).map Block.image ++
        [Block.text "t"]) =
      Block.imageRow [⟨"x", Layout.left⟩] :: compactBlocks [Block.text "t"] :=
  ⟨by decide,
    c3_row_compaction.2.1 [⟨"x", Layout.left⟩] [Block.text "t"] (by decide)
      (by decide) (fun b hb => by cases hb; rfl)⟩

/-- C4 counterexample: on body `"[img:abc]"` the malformed tag is not
consumed: it appears verbatim as an emitted text block, refuting the claim
that a non-numeric-index tag is treated as index -1 and dropped. -/
theorem c4_malformed_tag_counterexample :
    ((buildNewsContentBlocks "[img:abc]" ["u1"]).1.any fun b =>
      match b with
      | Block.text v => v == "[img:abc]"
      | _ => false) = true := by
  decide

/-- C4 amended: a tag with a non-numeric index such as `[img:abc]` does not
match the image-tag pattern (whose index group requires digits); the tag text
is left in the surrounding plain text and emitted inside a text block, no
image block is emitted for it, and parsing never raises (the builder is a
total function, and every image is left over). -/
theorem c4_malformed_tag_amended (images : List String) :
    buildNewsContentBlocks "[img:abc]" images = ([Block.text "[img:abc]"], images) := by
  have hscan : scanToks [] (replaceCRLF "[img:abc]".data) =
      [Tok.plain "[img:abc]".data] := by decide
  simp only [buildNewsContentBlocks]
  rw [hscan]
  have hblocks : tokBlocks images [Tok.plain "[img:abc]".data] =
      [Block.text "[img:abc]"] := rfl
  have hused : tokUsed images [Tok.plain "[img:abc]".data] = [] := rfl
  rw [hblocks, hused, remainingImages_nil_used]
  rfl

theorem parseServiceRecord_encode (s : ServiceItem) :
    parseServiceRecord (encodeServiceObj s) =
      some { title := s.title, body := s.body, icon := s.icon, detail_body := "",
             detail_images := [], detail_files := [] } := by
  cases s with
  | mk t b ic => cases ic <;> rfl

theorem parseServices_encodeServices (xs : List ServiceItem) :
    parseServices (encodeServices xs) = xs := by
  induction xs with
  | nil => rfl
  | cons x xs ih =>
    have h1 : parseServicesFull (encodeServices (x :: xs)) =
        ({ title := x.title, body := x.body, icon := x.icon, detail_body := "",
           detail_images := [], detail_files := [] } : ServiceRecord) ::
          parseServicesFull (encodeServices xs) := by
      unfold encodeServices parseServicesFull
      rw [List.map_cons]
      simp only [List.filterMap_cons, parseServiceRecord_encode]
    unfold parseServices at ih ⊢
    rw [h1, List.map_cons, ih]

/-- C5: evaluation of the code at the failing input.  schemas.py's
`ServiceItem` (lines 4-7) declares only title/body/icon, so the encode step
drops `detail_body`, `detail_images`, `detail_files` and the decode step
returns them empty: the round trip is not the identity on a
ServiceItem-shaped record with non-empty detail fields. -/
theorem c5_service_roundtrip_loses_detail :
    parseServicesFull (encodeServices
        ([({ title := "t", body := "b", icon := none, detail_body := "d",
             detail_images := ["u"], detail_files := [] } : ServiceRecord)].map
          validateServiceItem)) =
      [{ title := "t", body := "b", icon := none, detail_body := "",
         detail_images := [], detail_files := [] }] ∧
    parseServicesFull (encodeServices
        ([({ title := "t", body := "b", icon := none, detail_body := "d",
             detail_images := ["u"], detail_files := [] } : ServiceRecord)].map
          validateServiceItem)) ≠
      [{ title := "t", body := "b", icon := none, detail_body := "d",
         detail_images := ["u"], detail_files := [] }] := by
  constructor <;> decide

theorem setHomeField_frame (h : HomeRecord) (kv : String × Json) (f : String)
    (hne : targetColumn kv.1 kv.2 ≠ f) : setHomeField h kv f = h f := by
  unfold setHomeField
  unfold targetColumn at hne
  by_cases hc : (specialJsonFields.contains kv.1 && !(isNull kv.2)) = true
  · rw [if_pos hc]
    rw [if_pos hc] at hne
    show (if f = kv.1 ++ "_json" then kv.2 else h f) = h f
    exact if_neg (fun heq => hne heq.symm)
  · rw [if_neg hc]
    rw [if_neg hc] at hne
    show (if f = kv.1 then kv.2 else h f) = h f
    exact if_neg (fun heq => hne heq.symm)

/-- C6: update_home writes only the columns targeted by the explicitly-set
payload fields; every column not targeted by any payload entry keeps its
prior stored value. -/
theorem c6_partial_update_frame (home : HomeRecord) (payload : List (String × Json))
    (f : String) (h : ∀ kv ∈ payload, targetColumn kv.1 kv.2 ≠ f) :
    updateHome home payload f = home f := by
  induction payload generalizing home with
  | nil => rfl
  | cons kv rest ih =>
    have h1 : updateHome home (kv :: rest) = updateHome (setHomeField home kv) rest := rfl
    rw [h1, ih (setHomeField home kv) (fun kv2 hkv2 => h kv2 (List.mem_cons_of_mem kv hkv2)),
      setHomeField_frame home kv f (h kv (List.mem_cons_self kv rest))]

/-- Witness for C6: a payload setting hero_title and services leaves
mission_body untouched. -/
theorem c6_partial_update_frame_witness :
    (∀ kv ∈ ([("hero_title", Json.str "new"), ("services", Json.arr [])] :
        List (String × Json)), targetColumn kv.1 kv.2 ≠ "mission_body") ∧
    updateHome (fun _ => Json.str "old")
        [("hero_title", Json.str "new"), ("services", Json.arr [])] "mission_body" =
      Json.str "old" :=
  ⟨by decide,
    c6_partial_update_frame (fun _ => Json.str "old")
      [("hero_title", Json.str "new"), ("services", Json.arr [])] "mission_body" (by decide)⟩

/-- C7: with zero new uploads the stored image list is exactly the existing
list; in general the existing list is always a prefix of the stored list
(uploads are appended, never replace); and in the concrete scenario the
stored list for existing `["a.png"]` and no uploads is `["a.png"]`. -/
theorem c7_news_asset_merge :
    (∀ existing : List String, storedImagesAfterUpdate existing [] = existing) ∧
    (∀ existing newUploads : List String,
        (storedImagesAfterUpdate existing newUploads).take existing.length = existing) ∧
    storedImagesAfterUpdate (parseNewsImages (Json.arr [Json.str "a.png"]) "") [] =
      ["a.png"] := by
  refine ⟨fun existing => rfl, ?_, by decide⟩
  intro existing newU
  unfold storedImagesAfterUpdate mergeNewsAssets
  cases newU with
  | nil => simp
  | cons a l =>
    simp only [List.isEmpty_cons, Bool.not_false, if_true]
    exact List.take_left existing (a :: l)

theorem foldl_skip_append {α : Type} (q : Nat → Bool) (g : Nat → α) :
    ∀ (l : List Nat) (init : List α),
      l.foldl (fun acc i => if q i then acc else acc ++ [g i]) init =
        init ++ (l.filter (fun i => !(q i))).map g := by
  intro l
  induction l with
  | nil => intro init; simp
  | cons a l ih =>
    intro init
    rw [List.foldl_cons]
    by_cases h : q a
    · rw [if_pos h, ih]
      simp [List.filter_cons, h]
    · rw [if_neg h, ih]
      simp [List.filter_cons, h]

/-- C8: each form-array builder returns exactly the records of the indices
whose trimmed fields are not all blank, in input-index order — an all-blank
row is never present, every other row is kept in order. -/
theorem c8_normalizer_drop_rule :
    (∀ titles bodies icons : List String, buildItems titles bodies icons =
      ((List.range (max (max titles.length bodies.length) icons.length)).filter
        (fun i => !(itemBlankAt titles bodies icons i))).map (itemAt titles bodies icons)) ∧
    (∀ values suffixes labels : List String, buildHeroStats values suffixes labels =
      ((List.range (max (max values.length suffixes.length) labels.length)).filter
        (fun i => !(heroStatBlankAt values suffixes labels i))).map
        (heroStatAt values suffixes labels)) ∧
    (∀ labels bodies : List String, buildConceptPoints labels bodies =
      ((List.range (max labels.length bodies.length)).filter
        (fun i => !(conceptPointBlankAt labels bodies i))).map (conceptPointAt labels bodies)) ∧
    (∀ labels values : List String, buildProfileRows labels values =
      ((List.range (max labels.length values.length)).filter
        (fun i => !(profileRowBlankAt labels values i))).map (profileRowAt labels values)) ∧
    (∀ titles bodies icons detailBodies detailImages detailFiles : List String,
      buildServices titles bodies icons detailBodies detailImages detailFiles =
        ((List.range (max (max (max (max (max titles.length bodies.length) icons.length)
            detailBodies.length) detailImages.length) detailFiles.length)).filter
          (fun i => !(serviceRowBlankAt titles bodies icons detailBodies detailImages
            detailFiles i))).map
          (serviceRowAt titles bodies icons detailBodies detailImages detailFiles)) := by
  refine ⟨?_, ?_, ?_, ?_, ?_⟩
  · intro t b ic
    exact (foldl_skip_append (itemBlankAt t b ic) (itemAt t b ic)
      (List.range (max (max t.length b.length) ic.length)) []).trans (List.nil_append _)
  · intro v s l
    exact (foldl_skip_append (heroStatBlankAt v s l) (heroStatAt v s l)
      (List.range (max (max v.length s.length) l.length)) []).trans (List.nil_append _)
  · intro l b
    exact (foldl_skip_append (conceptPointBlankAt l b) (conceptPointAt l b)
      (List.range (max l.length b.length)) []).trans (List.nil_append _)
  · intro l v
    exact (foldl_skip_append (profileRowBlankAt l v) (profileRowAt l v)
      (List.range (max l.length v.length)) []).trans (List.nil_append _)
  · intro t b ic db di df
    exact (foldl_skip_append (serviceRowBlankAt t b ic db di df) (serviceRowAt t b ic db di df)
      (List.range (max (max (max (max (max t.length b.length) ic.length) db.length)
        di.length) df.length)) []).trans (List.nil_append _)

theorem profileRowOf_eq_none (row : Json) (h : rowNoContent row = true) :
    profileRowOf row = none := by
  cases row with
  | obj fields =>
    have h2 : (stripStr (pyStrOr (jget fields "label")) == "" &&
        stripStr (pyStrOr (jget fields "value")) == "") = true := h
    simp only [profileRowOf, h2, if_true]
  | null => rfl
  | bool b => rfl
  | num n => rfl
  | str s => rfl
  | arr xs => rfl

theorem filterMap_profileRowOf_nil (raws : List Json)
    (hall : ∀ row ∈ raws, rowNoContent row = true) :
    List.filterMap profileRowOf raws = [] := by
  induction raws with
  | nil => rfl
  | cons row rest ih =>
    rw [List.filterMap_cons,
      profileRowOf_eq_none row (hall row (List.mem_cons_self row rest))]
    exact ih (fun x hx => hall x (List.mem_cons_of_mem row hx))

theorem profileRowsOf_nil_of_all (raws : List Json)
    (hall : ∀ row ∈ raws, rowNoContent row = true) :
    profileRowsOf (Json.arr raws) = [] :=
  filterMap_profileRowOf_nil raws hall

/-- C9: when the decoded profile_rows list has no row contributing a
non-empty label or value, the projection is exactly the six fixed rows
synthesized from the legacy scalar columns in order 名称, 所在地, 代表者,
設立, 事業内容, 主要取引先; in particular for `"[]"` and
company_name "Acme" the result has the six rows with first
`(名称, "Acme")`. -/
theorem c9_profile_rows_fallback :
    (∀ (raws : List Json) (c a r e bd cl : Option String),
        (∀ row ∈ raws, rowNoContent row = true) →
        publicProfileRows (Json.arr raws) c a r e bd cl =
          [⟨"名称", c.getD ""⟩, ⟨"所在地", a.getD ""⟩, ⟨"代表者", r.getD ""⟩,
           ⟨"設立", e.getD ""⟩, ⟨"事業内容", bd.getD ""⟩, ⟨"主要取引先", cl.getD ""⟩]) ∧
    publicProfileRows (Json.arr []) (some "Acme") none none none none none =
      [⟨"名称", "Acme"⟩, ⟨"所在地", ""⟩, ⟨"代表者", ""⟩, ⟨"設立", ""⟩,
       ⟨"事業内容", ""⟩, ⟨"主要取引先", ""⟩] := by
  constructor
  · intro raws c a r e bd cl hall
    unfold publicProfileRows
    rw [profileRowsOf_nil_of_all raws hall]
    rfl
  · decide

/-- Witness for C9: one dict row with no label/value content triggers the
six-row legacy fallback. -/
theorem c9_profile_rows_fallback_witness :
    (∀ row ∈ [Json.obj []], rowNoContent row = true) ∧
    publicProfileRows (Json.arr [Json.obj []]) (some "X") none none none none none =
      [⟨"名称", "X"⟩, ⟨"所在地", ""⟩, ⟨"代表者", ""⟩, ⟨"設立", ""⟩,
       ⟨"事業内容", ""⟩, ⟨"主要取引先", ""⟩] :=
  ⟨by decide,
    c9_profile_rows_fallback.1 [Json.obj []] (some "X") none none none none none (by decide)⟩

/-- C10: the public news detail page is not found both when no row has the
id and when the row exists but is unpublished; a page is only ever produced
for a stored, published item. -/
theorem c10_unpublished_news_not_served (store : List NewsItem) (newsId : Int) :
    (getNews store newsId = none → newsDetail store newsId = NewsDetailResult.notFound) ∧
    (∀ item, getNews store newsId = some item → item.is_published = false →
        newsDetail store newsId = NewsDetailResult.notFound) ∧
    (∀ item, newsDetail store newsId = NewsDetailResult.page item →
        item.is_published = true ∧ getNews store newsId = some item) := by
  refine ⟨?_, ?_, ?_⟩
  · intro h
    unfold newsDetail
    rw [h]
  · intro item h hpub
    unfold newsDetail
    rw [h]
    simp [hpub]
  · intro item h
    unfold newsDetail at h
    cases hg : getNews store newsId with
    | none =>
      rw [hg] at h
      exact absurd (show NewsDetailResult.notFound = NewsDetailResult.page item from h)
        (by simp)
    | some it =>
      rw [hg] at h
      have h2 : (if it.is_published = true then NewsDetailResult.page it
          else NewsDetailResult.notFound) = NewsDetailResult.page item := h
      by_cases hp : it.is_published = true
      · rw [if_pos hp] at h2
        cases h2
        exact ⟨hp, rfl⟩
      · rw [if_neg hp] at h2
        exact absurd h2 (by simp)

/-- Witness for C10: a stored but unpublished item yields not-found. -/
theorem c10_unpublished_news_not_served_witness :
    newsDetail [⟨1, "t", "b", false⟩] 1 = NewsDetailResult.notFound :=
  (c10_unpublished_news_not_served [⟨1, "t", "b", false⟩] 1).2.1 ⟨1, "t", "b", false⟩ rfl rfl

/-- Witness for C2: on body `"[img:1]"` with one image, index 0 is consumed
and the in-range property applies to it. -/
theorem c2_leftover_completeness_witness :
    0 ∈ usedIndexes "[img:1]" ["u"] ∧ 0 < (["u"] : List String).length :=
  ⟨by decide, (c2_leftover_completeness "[img:1]" ["u"]).1 0 (by decide)⟩

end Eiho
